import Mathlib

/-!
# Verification of the shared_ptr / weak_ptr reference-counting core

A shallow embedding of `src/shared_ptr.h`: a reference-counted
shared-ownership pointer (`shared_ptr`) with a cooperating non-owning
observer (`weak_ptr`), both built over a heap of control blocks.

Addresses (C++ raw pointers) are modelled as `Option Nat` (`none` is the
null pointer).  Control blocks live in a heap indexed by allocation order;
a deallocated block is recorded as `none` in the heap so that dangling
block references are observable.  Operations additionally return a list of
`event`s recording counter increments/decrements, `destroy()` calls,
deleter invocations and block deallocations, mirroring the side effects of
the C++ code line by line.
-/

namespace SharedPtrSpec

/-- A raw pointer: `none` models the C++ null pointer. -/
abbrev Addr := Option Nat

/-- The three control-block variants of the source:
`default_control_block` (holds a raw pointer, destroys it via `delete`),
`regular_control_block` (raw pointer plus a caller-supplied deleter,
identified here by a numeric tag), and `inplace_control_block`
(storage embedded next to the header, used by `make_shared`). -/
inductive cbvariant
  | default_cb (obj : Addr)
  | regular_cb (obj : Addr) (deleter : Nat)
  | inplace_cb
deriving DecidableEq, Repr

/-- The control block of the source (`class control_block`): a strong
count `ref` (initialised to 1 in the C++ class), a weak count `wref`
(initialised to 0) and the dispatch variant for `destroy()`. -/
structure control_block where
  ref : Nat
  wref : Nat
  variant : cbvariant
deriving DecidableEq, Repr

/-- Observable side effects of the heap operations. -/
inductive event
  | inc_evt (bid : Nat)
  | dec_evt (bid : Nat)
  | winc_evt (bid : Nat)
  | wdec_evt (bid : Nat)
  | destroy_evt (bid : Nat)
  | deleter_call (d : Nat) (a : Addr)
  | delete_block (bid : Nat)
deriving DecidableEq, Repr

/-- The heap of control blocks; index = allocation order.  A cell holding
`none` is a block whose storage has been deallocated (`delete this`). -/
structure Heap where
  blocks : List (Option control_block)
deriving DecidableEq, Repr

/-- Look up the control block with id `bid` (`none` if deallocated or
never allocated). -/
def Heap.find (h : Heap) (bid : Nat) : Option control_block :=
  h.blocks.getD bid none

/-- Overwrite the heap cell of block `bid`. -/
def Heap.set (h : Heap) (bid : Nat) (c : Option control_block) : Heap :=
  ⟨h.blocks.set bid c⟩

/-- Allocate a fresh control block, returning the new heap and the id. -/
def Heap.alloc (h : Heap) (cb : control_block) : Heap × Nat :=
  (⟨h.blocks ++ [some cb]⟩, h.blocks.length)

/-- Events emitted by `destroy()` on block `bid`, per variant:
the default variant runs `delete obj`; the regular variant invokes the
deleter on `obj` unless `obj` is null; the in-place variant runs the
value's destructor in place. -/
def destroy_events (bid : Nat) : cbvariant → List event
  | .default_cb _ => [.destroy_evt bid]
  | .regular_cb obj d =>
      .destroy_evt bid :: (if obj = none then [] else [.deleter_call d obj])
  | .inplace_cb => [.destroy_evt bid]

/-- Models `control_block::inc`: `ref++`.  Calling it on a deallocated
block is undefined behaviour in C++ and unreachable from valid states;
modelled as a no-op. -/
def Heap.inc (h : Heap) (bid : Nat) : Heap × List event :=
  match h.find bid with
  | none => (h, [])
  | some cb => (h.set bid (some { cb with ref := cb.ref + 1 }), [.inc_evt bid])

/-- Models `control_block::dec`:
`ref--; if (ref != 0) return; destroy(); if (wref == 0) delete this;`. -/
def Heap.dec (h : Heap) (bid : Nat) : Heap × List event :=
  match h.find bid with
  | none => (h, [])
  | some cb =>
    let cb' : control_block := { cb with ref := cb.ref - 1 }
    if cb'.ref ≠ 0 then
      (h.set bid (some cb'), [.dec_evt bid])
    else if cb'.wref = 0 then
      (h.set bid none, .dec_evt bid :: destroy_events bid cb'.variant ++ [.delete_block bid])
    else
      (h.set bid (some cb'), .dec_evt bid :: destroy_events bid cb'.variant)

/-- Models `control_block::winc`: `wref++`. -/
def Heap.winc (h : Heap) (bid : Nat) : Heap × List event :=
  match h.find bid with
  | none => (h, [])
  | some cb => (h.set bid (some { cb with wref := cb.wref + 1 }), [.winc_evt bid])

/-- Models `control_block::wdec`: `if (--wref == 0 && ref == 0) delete this;`. -/
def Heap.wdec (h : Heap) (bid : Nat) : Heap × List event :=
  match h.find bid with
  | none => (h, [])
  | some cb =>
    let cb' : control_block := { cb with wref := cb.wref - 1 }
    if cb'.wref = 0 ∧ cb'.ref = 0 then
      (h.set bid none, [.wdec_evt bid, .delete_block bid])
    else
      (h.set bid (some cb'), [.wdec_evt bid])

/-- The strong count stored in block `bid` (`control_block::use_count`);
reading a deallocated block is undefined behaviour in C++, modelled as 0
(unreachable from valid states). -/
def Heap.ref_count (h : Heap) (bid : Nat) : Nat :=
  match h.find bid with
  | none => 0
  | some cb => cb.ref

/-- The owning handle of the source (`class shared_ptr`): a block
reference (`control_block *block`, `none` = null) and the address of
record (`T *ptr`). -/
structure shared_ptr where
  block : Option Nat
  ptr : Addr
deriving DecidableEq, Repr

/-- The non-owning observer of the source (`class weak_ptr`): same two
fields, counted through the weak count. -/
structure weak_ptr where
  block : Option Nat
  ptr : Addr
deriving DecidableEq, Repr

/-- Outcome of an operation that may fail: `ok` (normal return), `threw`
(an exception propagates to the caller), `terminated` (an exception
escaped a `noexcept` function, so C++ calls `std::terminate`). -/
inductive outcome
  | ok
  | threw
  | terminated
deriving DecidableEq, Repr

/-- Result of an operation returning a heap, a handle and its events. -/
structure sp_result where
  heap : Heap
  self : shared_ptr
  events : List event
deriving DecidableEq, Repr

/-- Result of a shared_ptr move-assignment: destination and source. -/
structure sp_move_result where
  heap : Heap
  self : shared_ptr
  src : shared_ptr
  events : List event
deriving DecidableEq, Repr

/-- Result of a weak_ptr operation returning the handle. -/
structure wp_result where
  heap : Heap
  self : weak_ptr
  events : List event
deriving DecidableEq, Repr

/-- Result of a weak_ptr move-assignment: destination and source. -/
structure wp_move_result where
  heap : Heap
  self : weak_ptr
  src : weak_ptr
  events : List event
deriving DecidableEq, Repr

/-- Result of a fallible constructor: on failure there is no handle. -/
structure sp_ctor_result where
  heap : Heap
  handle : Option shared_ptr
  result : outcome
  events : List event
deriving DecidableEq, Repr

/-- Result of a `reset` call: the handle's state after the call. -/
structure sp_reset_result where
  heap : Heap
  self : shared_ptr
  result : outcome
  events : List event
deriving DecidableEq, Repr

/-- The empty handle: `shared_ptr()` and `shared_ptr(std::nullptr_t)`. -/
def shared_ptr.mk_null : shared_ptr := ⟨none, none⟩

/-- Models `T * get(void) const`: returns `ptr`. -/
def shared_ptr.get (p : shared_ptr) : Addr := p.ptr

/-- Models `operator bool`: `!!ptr`. -/
def shared_ptr.op_bool (p : shared_ptr) : Bool := p.ptr.isSome

/-- Models `shared_ptr::use_count`:
`if (block == nullptr) return 0; return block->use_count();`. -/
def shared_ptr.use_count (h : Heap) (p : shared_ptr) : Nat :=
  match p.block with
  | none => 0
  | some b => Heap.ref_count h b

/-- Models the raw-pointer constructor
`explicit shared_ptr(Y *ptr) noexcept : block(new default_control_block(ptr)), ptr(ptr)`.
`allocOk` says whether the `new` succeeds.  The constructor is declared
`noexcept` in the source, so an allocation failure does not propagate: it
calls `std::terminate`, modelled by the `terminated` outcome. -/
def shared_ptr.mk_from_ptr (h : Heap) (a : Addr) (allocOk : Bool) : sp_ctor_result :=
  if allocOk then
    let al := Heap.alloc h ⟨1, 0, .default_cb a⟩
    ⟨al.1, some ⟨some al.2, a⟩, .ok, []⟩
  else
    ⟨h, none, .terminated, []⟩

/-- Models the deleter constructor, a function-try-block:
`shared_ptr(Y *ptr, D deleter) try : block(new regular_control_block<T, D>(ptr, std::move(deleter))), ptr(ptr) {} catch (...) { deleter(ptr); throw; }`. -/
def shared_ptr.mk_with_deleter (h : Heap) (a : Addr) (d : Nat) (allocOk : Bool) :
    sp_ctor_result :=
  if allocOk then
    let al := Heap.alloc h ⟨1, 0, .regular_cb a d⟩
    ⟨al.1, some ⟨some al.2, a⟩, .ok, []⟩
  else
    ⟨h, none, .threw, [.deleter_call d a]⟩

/-- Models the aliasing constructor
`shared_ptr(const shared_ptr<Y> &s, T *al) noexcept : block(s.block), ptr(al) { if (block != nullptr) block->inc(); }`. -/
def shared_ptr.alias_ctor (h : Heap) (s : shared_ptr) (a : Addr) : sp_result :=
  match s.block with
  | none => ⟨h, ⟨none, a⟩, []⟩
  | some b =>
    let r := Heap.inc h b
    ⟨r.1, ⟨some b, a⟩, r.2⟩

/-- Models `shared_ptr::assign(shared_ptr<Y> &&r)` for two distinct
handle objects: if the blocks are equal only the address is adopted (and
the source is left untouched); otherwise the old block is released and
`(block, ptr)` is taken over while the source is nulled out. -/
def shared_ptr.assign_move (h : Heap) (self r : shared_ptr) : sp_move_result :=
  if self.block = r.block then
    ⟨h, { self with ptr := r.ptr }, r, []⟩
  else
    let d := match self.block with
      | some b => Heap.dec h b
      | none => (h, [])
    ⟨d.1, ⟨r.block, r.ptr⟩, ⟨none, none⟩, d.2⟩

/-- Models `p = std::move(p)`: in the source, destination and source are
the same object, so the same-block test compares the field with itself
and the branch only rewrites `ptr` with its own value. -/
def shared_ptr.assign_move_self (h : Heap) (self : shared_ptr) : Heap × shared_ptr :=
  if self.block = self.block then
    (h, { self with ptr := self.ptr })
  else
    let d := match self.block with
      | some b => Heap.dec h b
      | none => (h, [])
    (d.1, ⟨none, none⟩)

/-- Models `shared_ptr::assign(const shared_ptr<Y> &r)`:
`auto old = block; block = r.block; if (block != nullptr) block->inc(); ptr = r.ptr; if (old != nullptr) old->dec();`
(note: no same-block check; the increment precedes the decrement). -/
def shared_ptr.assign_copy (h : Heap) (self r : shared_ptr) : sp_result :=
  let old := self.block
  let i := match r.block with
    | some b => Heap.inc h b
    | none => (h, [])
  let d := match old with
    | some b => Heap.dec i.1 b
    | none => (i.1, [])
  ⟨d.1, ⟨r.block, r.ptr⟩, i.2 ++ d.2⟩

/-- Models `shared_ptr::reset(Y *r)`:
`dec(); block = new default_control_block<Y>(r); ptr = r;`.
If the `new` throws, the assignments to `block` and `ptr` never execute,
so the handle keeps its old fields (which the preceding `dec()` has
already released). -/
def shared_ptr.reset_with_ptr (h : Heap) (self : shared_ptr) (r : Addr)
    (allocOk : Bool) : sp_reset_result :=
  let d := match self.block with
    | some b => Heap.dec h b
    | none => (h, [])
  if allocOk then
    let al := Heap.alloc d.1 ⟨1, 0, .default_cb r⟩
    ⟨al.1, ⟨some al.2, r⟩, .ok, d.2⟩
  else
    ⟨d.1, self, .threw, d.2⟩

/-- Models `shared_ptr::reset(Y *r, D deleter)`:
`dec(); try { block = nullptr; ptr = nullptr; block = new regular_control_block<Y, D>(r, std::move(deleter)); ptr = r; } catch (...) { deleter(r); throw; }`.
On allocation failure the handle has already been nulled, the deleter is
invoked on `r` and the exception propagates. -/
def shared_ptr.reset_with_deleter (h : Heap) (self : shared_ptr) (r : Addr)
    (d : Nat) (allocOk : Bool) : sp_reset_result :=
  let de := match self.block with
    | some b => Heap.dec h b
    | none => (h, [])
  if allocOk then
    let al := Heap.alloc de.1 ⟨1, 0, .regular_cb r d⟩
    ⟨al.1, ⟨some al.2, r⟩, .ok, de.2⟩
  else
    ⟨de.1, ⟨none, none⟩, .threw, de.2 ++ [.deleter_call d r]⟩

/-- Models `operator==(const shared_ptr<T> &t, const shared_ptr<Y> &y)`:
`t.get() == y.get()`. -/
def sp_eq_sp (t y : shared_ptr) : Bool := decide (t.get = y.get)

/-- Models `operator==(const shared_ptr<T> &t, std::nullptr_t)`:
`t.get() == nullptr`. -/
def sp_eq_null (t : shared_ptr) : Bool := decide (t.get = none)

/-- Models `weak_ptr::assign(weak_ptr<Y> &&r)` for two distinct handle
objects (mirror of the shared move-assign, on the weak count). -/
def weak_ptr.assign_move (h : Heap) (self r : weak_ptr) : wp_move_result :=
  if self.block = r.block then
    ⟨h, { self with ptr := r.ptr }, r, []⟩
  else
    let d := match self.block with
      | some b => Heap.wdec h b
      | none => (h, [])
    ⟨d.1, ⟨r.block, r.ptr⟩, ⟨none, none⟩, d.2⟩

/-- Models `w = std::move(w)` on a weak handle: destination and source
are the same object, so the same-block branch is taken. -/
def weak_ptr.assign_move_self (h : Heap) (self : weak_ptr) : Heap × weak_ptr :=
  if self.block = self.block then
    (h, { self with ptr := self.ptr })
  else
    let d := match self.block with
      | some b => Heap.wdec h b
      | none => (h, [])
    (d.1, ⟨none, none⟩)

/-- Models `weak_ptr::assign(const weak_ptr<Y> &r)`:
`auto old = block; block = r.block; if (block != nullptr) block->winc(); ptr = r.ptr; if (old != nullptr) old->wdec();`. -/
def weak_ptr.assign_copy (h : Heap) (self r : weak_ptr) : wp_result :=
  let old := self.block
  let i := match r.block with
    | some b => Heap.winc h b
    | none => (h, [])
  let d := match old with
    | some b => Heap.wdec i.1 b
    | none => (i.1, [])
  ⟨d.1, ⟨r.block, r.ptr⟩, i.2 ++ d.2⟩

/-- Models `weak_ptr::lock`:
`if (block == nullptr || block->use_count() == 0) return shared_ptr<T>(nullptr); block->inc(); return shared_ptr<T>(block, ptr);`. -/
def weak_ptr.lock (h : Heap) (self : weak_ptr) : sp_result :=
  match self.block with
  | none => ⟨h, ⟨none, none⟩, []⟩
  | some b =>
    if Heap.ref_count h b = 0 then
      ⟨h, ⟨none, none⟩, []⟩
    else
      let i := Heap.inc h b
      ⟨i.1, ⟨some b, self.ptr⟩, i.2⟩

/-! ## Single-block lifecycle model

A direct embedding of `control_block`'s four counter operations
(`inc`, `dec`, `winc`, `wdec`, lines 22-36 of the header) as a step
function on one block, emitting the lifecycle events `destroyed`
(`destroy()` ran on the managed resource) and `deleted`
(`delete this` ran on the block's own storage).  Validity of an
operation captures the caller discipline of the handles: a strong
increment or decrement is only issued by code holding a strong
reference, a weak decrement by code holding a weak reference, and a
weak increment by code holding either kind of handle. -/

/-- Lifecycle events of one control block. -/
inductive life_event
  | destroyed
  | deleted
deriving DecidableEq, Repr

/-- The four counter operations of `control_block`. -/
inductive cb_op
  | inc
  | dec
  | winc
  | wdec
deriving DecidableEq, Repr

/-- One counter operation on a block, with the events it emits:
`inc`: `ref++`;
`dec`: `ref--; if (ref != 0) return; destroy(); if (wref == 0) delete this;`;
`winc`: `wref++`;
`wdec`: `if (--wref == 0 && ref == 0) delete this;`. -/
def cb_step (cb : control_block) : cb_op → control_block × List life_event
  | .inc => ({ cb with ref := cb.ref + 1 }, [])
  | .dec =>
    let cb' : control_block := { cb with ref := cb.ref - 1 }
    if cb'.ref ≠ 0 then (cb', [])
    else if cb'.wref = 0 then (cb', [.destroyed, .deleted])
    else (cb', [.destroyed])
  | .winc => ({ cb with wref := cb.wref + 1 }, [])
  | .wdec =>
    let cb' : control_block := { cb with wref := cb.wref - 1 }
    if cb'.wref = 0 ∧ cb'.ref = 0 then (cb', [.deleted]) else (cb', [])

/-- Caller discipline: which operations may be issued on a block in a
given state (each operation is invoked through a handle that itself
keeps the corresponding count positive). -/
def cb_valid (cb : control_block) : cb_op → Bool
  | .inc => decide (1 ≤ cb.ref)
  | .dec => decide (1 ≤ cb.ref)
  | .winc => decide (1 ≤ cb.ref) || decide (1 ≤ cb.wref)
  | .wdec => decide (1 ≤ cb.wref)

/-- A whole operation sequence is valid from a given block state. -/
def cb_valid_seq (cb : control_block) : List cb_op → Bool
  | [] => true
  | op :: ops => cb_valid cb op && cb_valid_seq (cb_step cb op).1 ops

/-- The block state after running a sequence of operations. -/
def cb_run (cb : control_block) : List cb_op → control_block
  | [] => cb
  | op :: ops => cb_run (cb_step cb op).1 ops

/-- The lifecycle events emitted while running a sequence. -/
def cb_trace (cb : control_block) : List cb_op → List life_event
  | [] => []
  | op :: ops => (cb_step cb op).2 ++ cb_trace (cb_step cb op).1 ops

/-! ## Helper lemmas about the heap -/

theorem list_getD_set_of_mem {α : Type} (l : List (Option α)) (n : Nat)
    (x : Option α) (y : α) (hy : l.getD n none = some y) :
    (l.set n x).getD n none = x := by
  induction l generalizing n with
  | nil => simp [List.getD] at hy
  | cons a t ih =>
    cases n with
    | zero => simp [List.getD]
    | succ m =>
      simp only [List.set]
      simpa [List.getD] using ih m (by simpa [List.getD] using hy)

theorem list_set_of_getD {α : Type} (l : List (Option α)) (n : Nat) (y : α)
    (hy : l.getD n none = some y) : l.set n (some y) = l := by
  induction l generalizing n with
  | nil => simp [List.getD] at hy
  | cons a t ih =>
    cases n with
    | zero =>
      have ha : a = some y := by simpa [List.getD] using hy
      simp [List.set, ha]
    | succ m =>
      simp only [List.set]
      rw [ih m (by simpa [List.getD] using hy)]

theorem list_getD_append_len {α : Type} (l : List (Option α)) (x : Option α) :
    (l ++ [x]).getD l.length none = x := by
  induction l with
  | nil => simp [List.getD]
  | cons a t ih => simp [List.getD] at ih ⊢

theorem Heap.find_set_self (h : Heap) (b : Nat) (cb : control_block)
    (x : Option control_block) (hf : h.find b = some cb) :
    (h.set b x).find b = x :=
  list_getD_set_of_mem h.blocks b x cb hf

theorem Heap.set_find_self (h : Heap) (b : Nat) (cb : control_block)
    (hf : h.find b = some cb) : h.set b (some cb) = h := by
  show Heap.mk (h.blocks.set b (some cb)) = h
  rw [list_set_of_getD h.blocks b cb hf]

theorem Heap.set_set (h : Heap) (b : Nat) (x y : Option control_block) :
    (h.set b x).set b y = h.set b y := by
  show Heap.mk ((h.blocks.set b x).set b y) = Heap.mk (h.blocks.set b y)
  rw [List.set_set]

theorem Heap.find_alloc (h : Heap) (cb : control_block) :
    (Heap.alloc h cb).1.find (Heap.alloc h cb).2 = some cb :=
  list_getD_append_len h.blocks (some cb)

theorem Heap.inc_eq (h : Heap) (b : Nat) (cb : control_block)
    (hf : h.find b = some cb) :
    Heap.inc h b = (h.set b (some { cb with ref := cb.ref + 1 }), [.inc_evt b]) := by
  simp [Heap.inc, hf]

theorem Heap.dec_eq_live (h : Heap) (b : Nat) (cb : control_block)
    (hf : h.find b = some cb) (hc : 2 ≤ cb.ref) :
    Heap.dec h b = (h.set b (some { cb with ref := cb.ref - 1 }), [.dec_evt b]) := by
  have hne : cb.ref - 1 ≠ 0 := by omega
  simp [Heap.dec, hf, hne]

theorem Heap.winc_eq (h : Heap) (b : Nat) (cb : control_block)
    (hf : h.find b = some cb) :
    Heap.winc h b = (h.set b (some { cb with wref := cb.wref + 1 }), [.winc_evt b]) := by
  simp [Heap.winc, hf]

theorem Heap.wdec_eq_live (h : Heap) (b : Nat) (cb : control_block)
    (hf : h.find b = some cb) (hc : 2 ≤ cb.wref) :
    Heap.wdec h b = (h.set b (some { cb with wref := cb.wref - 1 }), [.wdec_evt b]) := by
  have hne : ¬(cb.wref - 1 = 0 ∧ cb.ref = 0) := by omega
  simp [Heap.wdec, hf, hne]

/-- Copy-assignment between two shared handles on the same block `b`
(with a live strong count): the increment runs first, the matching
decrement second, the heap is unchanged and the destination takes the
source's address. -/
theorem sp_assign_copy_same (h : Heap) (p r : shared_ptr) (b : Nat)
    (cb : control_block) (hp : p.block = some b) (hr : r.block = some b)
    (hf : h.find b = some cb) (hc : 1 ≤ cb.ref) :
    shared_ptr.assign_copy h p r = ⟨h, ⟨some b, r.ptr⟩, [.inc_evt b, .dec_evt b]⟩ := by
  have h1 : Heap.inc h b = (h.set b (some { cb with ref := cb.ref + 1 }), [.inc_evt b]) :=
    Heap.inc_eq h b cb hf
  have h2 : (h.set b (some { cb with ref := cb.ref + 1 })).find b
      = some { cb with ref := cb.ref + 1 } :=
    Heap.find_set_self h b cb _ hf
  have h3 : Heap.dec (h.set b (some { cb with ref := cb.ref + 1 })) b
      = ((h.set b (some { cb with ref := cb.ref + 1 })).set b (some cb), [.dec_evt b]) := by
    have := Heap.dec_eq_live (h.set b (some { cb with ref := cb.ref + 1 })) b
      { cb with ref := cb.ref + 1 } h2 (by simp; omega)
    simpa using this
  have h4 : ((h.set b (some { cb with ref := cb.ref + 1 })).set b (some cb)) = h := by
    rw [Heap.set_set, Heap.set_find_self h b cb hf]
  simp [shared_ptr.assign_copy, hp, hr, h1, h3, h4]

/-- Copy-assignment between two weak handles on the same block `b`
(with a live weak count): mirror of the shared case on the weak count. -/
theorem wp_assign_copy_same (h : Heap) (p r : weak_ptr) (b : Nat)
    (cb : control_block) (hp : p.block = some b) (hr : r.block = some b)
    (hf : h.find b = some cb) (hc : 1 ≤ cb.wref) :
    weak_ptr.assign_copy h p r = ⟨h, ⟨some b, r.ptr⟩, [.winc_evt b, .wdec_evt b]⟩ := by
  have h1 : Heap.winc h b = (h.set b (some { cb with wref := cb.wref + 1 }), [.winc_evt b]) :=
    Heap.winc_eq h b cb hf
  have h2 : (h.set b (some { cb with wref := cb.wref + 1 })).find b
      = some { cb with wref := cb.wref + 1 } :=
    Heap.find_set_self h b cb _ hf
  have h3 : Heap.wdec (h.set b (some { cb with wref := cb.wref + 1 })) b
      = ((h.set b (some { cb with wref := cb.wref + 1 })).set b (some cb), [.wdec_evt b]) := by
    have := Heap.wdec_eq_live (h.set b (some { cb with wref := cb.wref + 1 })) b
      { cb with wref := cb.wref + 1 } h2 (by simp; omega)
    simpa using this
  have h4 : ((h.set b (some { cb with wref := cb.wref + 1 })).set b (some cb)) = h := by
    rw [Heap.set_set, Heap.set_find_self h b cb hf]
  simp [weak_ptr.assign_copy, hp, hr, h1, h3, h4]

/-! ## Lifecycle lemmas for the single-block model -/

theorem cb_valid_zero (cb : control_block) (op : cb_op) (h0 : cb.ref = 0)
    (hw : cb.wref = 0) : cb_valid cb op = false := by
  cases op <;> simp [cb_valid, h0, hw]

theorem cb_run_ref_zero (ops : List cb_op) : ∀ cb : control_block, cb.ref = 0 →
    cb_valid_seq cb ops = true →
    (cb_run cb ops).ref = 0 ∧ (cb_trace cb ops).count .destroyed = 0 := by
  induction ops with
  | nil => intro cb h0 _; simp [cb_run, cb_trace, h0]
  | cons op ops ih =>
    intro cb h0 hv
    simp only [cb_valid_seq, Bool.and_eq_true] at hv
    obtain ⟨hop, hrest⟩ := hv
    cases op with
    | inc => simp [cb_valid, h0] at hop
    | dec => simp [cb_valid, h0] at hop
    | winc =>
      simp only [cb_run, cb_trace, cb_step, List.nil_append]
      exact ih _ h0 (by simpa [cb_step] using hrest)
    | wdec =>
      by_cases hc : cb.wref - 1 = 0 ∧ cb.ref = 0
      · have hres := ih { cb with wref := cb.wref - 1 } h0
          (by simpa [cb_step, hc] using hrest)
        simp only [cb_run, cb_trace, cb_step, if_pos hc, List.count_append]
        refine ⟨hres.1, ?_⟩
        simpa [List.count_cons] using hres.2
      · have hres := ih { cb with wref := cb.wref - 1 } h0
          (by simpa [cb_step, hc] using hrest)
        simp only [cb_run, cb_trace, cb_step, if_neg hc, List.nil_append]
        exact hres

theorem cb_run_destroyed_count (ops : List cb_op) : ∀ cb : control_block,
    1 ≤ cb.ref → cb_valid_seq cb ops = true →
    (cb_trace cb ops).count .destroyed
      = if (cb_run cb ops).ref = 0 then 1 else 0 := by
  induction ops with
  | nil =>
    intro cb h1 _
    have : ¬cb.ref = 0 := by omega
    simp [cb_run, cb_trace, this]
  | cons op ops ih =>
    intro cb h1 hv
    simp only [cb_valid_seq, Bool.and_eq_true] at hv
    obtain ⟨hop, hrest⟩ := hv
    cases op with
    | inc =>
      simp only [cb_run, cb_trace, cb_step, List.nil_append]
      exact ih _ (by simp) (by simpa [cb_step] using hrest)
    | winc =>
      simp only [cb_run, cb_trace, cb_step, List.nil_append]
      exact ih _ (by simpa using h1) (by simpa [cb_step] using hrest)
    | wdec =>
      have hc : ¬(cb.wref - 1 = 0 ∧ cb.ref = 0) := by omega
      simp only [cb_run, cb_trace, cb_step, if_neg hc, List.nil_append]
      exact ih _ (by simpa using h1) (by simpa [cb_step, hc] using hrest)
    | dec =>
      by_cases h2 : 2 ≤ cb.ref
      · have hne : cb.ref - 1 ≠ 0 := by omega
        simp only [cb_run, cb_trace, cb_step, if_pos hne, List.nil_append]
        exact ih _ (by simp; omega) (by simpa [cb_step, hne] using hrest)
      · have he : cb.ref = 1 := by omega
        have hz : ¬(cb.ref - 1 ≠ 0) := by omega
        by_cases hw : cb.wref = 0
        · have hres := cb_run_ref_zero ops { cb with ref := cb.ref - 1 }
            (by simp [he]) (by simpa [cb_step, hz, hw] using hrest)
          simp only [cb_run, cb_trace, cb_step, if_neg hz, if_pos hw, List.count_append]
          simp [List.count_cons, hres.1, hres.2]
        · have hres := cb_run_ref_zero ops { cb with ref := cb.ref - 1 }
            (by simp [he]) (by simpa [cb_step, hz, hw] using hrest)
          simp only [cb_run, cb_trace, cb_step, if_neg hz, if_neg hw, List.count_append]
          simp [List.count_cons, hres.1, hres.2]

theorem cb_run_deleted_count (ops : List cb_op) : ∀ cb : control_block,
    1 ≤ cb.ref ∨ 1 ≤ cb.wref → cb_valid_seq cb ops = true →
    (cb_trace cb ops).count .deleted
      = if (cb_run cb ops).ref = 0 ∧ (cb_run cb ops).wref = 0 then 1 else 0 := by
  induction ops with
  | nil =>
    intro cb h1 _
    have : ¬((cb.ref = 0) ∧ (cb.wref = 0)) := by omega
    simp [cb_run, cb_trace, this]
  | cons op ops ih =>
    intro cb h1 hv
    simp only [cb_valid_seq, Bool.and_eq_true] at hv
    obtain ⟨hop, hrest⟩ := hv
    cases op with
    | inc =>
      have hr : 1 ≤ cb.ref := by simpa [cb_valid] using hop
      simp only [cb_run, cb_trace, cb_step, List.nil_append]
      exact ih _ (by simp) (by simpa [cb_step] using hrest)
    | winc =>
      simp only [cb_run, cb_trace, cb_step, List.nil_append]
      exact ih _ (by simp) (by simpa [cb_step] using hrest)
    | dec =>
      have hr : 1 ≤ cb.ref := by simpa [cb_valid] using hop
      by_cases h2 : 2 ≤ cb.ref
      · have hne : cb.ref - 1 ≠ 0 := by omega
        simp only [cb_run, cb_trace, cb_step, if_pos hne, List.nil_append]
        exact ih _ (by simp; omega) (by simpa [cb_step, hne] using hrest)
      · have he : cb.ref = 1 := by omega
        have hz : ¬(cb.ref - 1 ≠ 0) := by omega
        by_cases hw : cb.wref = 0
        · -- the step reaches (0, 0): validity forbids any further operation
          have hrest' : cb_valid_seq { cb with ref := cb.ref - 1 } ops = true := by
            simpa [cb_step, hz, hw] using hrest
          cases ops with
          | nil =>
            simp [cb_run, cb_trace, cb_step, hz, hw, he, List.count_cons]
          | cons op' ops' =>
            exfalso
            simp only [cb_valid_seq, Bool.and_eq_true] at hrest'
            have := cb_valid_zero { cb with ref := cb.ref - 1 } op' (by simp [he]) (by simpa using hw)
            rw [this] at hrest'
            exact Bool.false_ne_true hrest'.1
        · have hres := ih { cb with ref := cb.ref - 1 }
            (by simp; omega) (by simpa [cb_step, hz, hw] using hrest)
          simp only [cb_run, cb_trace, cb_step, if_neg hz, if_neg hw, List.count_append]
          simpa [List.count_cons] using hres
    | wdec =>
      have hwr : 1 ≤ cb.wref := by simpa [cb_valid] using hop
      by_cases hc : cb.wref - 1 = 0 ∧ cb.ref = 0
      · -- the step reaches (0, 0): validity forbids any further operation
        have hrest' : cb_valid_seq { cb with wref := cb.wref - 1 } ops = true := by
          simpa [cb_step, hc] using hrest
        cases ops with
        | nil =>
          simp [cb_run, cb_trace, cb_step, hc, List.count_cons, hc.1, hc.2]
        | cons op' ops' =>
          exfalso
          simp only [cb_valid_seq, Bool.and_eq_true] at hrest'
          have := cb_valid_zero { cb with wref := cb.wref - 1 } op'
            (by simpa using hc.2) (by simpa using hc.1)
          rw [this] at hrest'
          exact Bool.false_ne_true hrest'.1
      · have hres := ih { cb with wref := cb.wref - 1 }
          (by simp; omega) (by simpa [cb_step, hc] using hrest)
        simp only [cb_run, cb_trace, cb_step, if_neg hc, List.nil_append]
        exact hres

theorem cb_run_append (l l' : List cb_op) : ∀ cb : control_block,
    cb_run cb (l ++ l') = cb_run (cb_run cb l) l' := by
  induction l with
  | nil => intro cb; simp [cb_run]
  | cons op t ih => intro cb; simp only [List.cons_append, cb_run]; exact ih _

theorem cb_valid_seq_append (l l' : List cb_op) : ∀ cb : control_block,
    cb_valid_seq cb (l ++ l') = true → cb_valid_seq (cb_run cb l) l' = true := by
  induction l with
  | nil => intro cb hv; simpa [cb_run] using hv
  | cons op t ih =>
    intro cb hv
    simp only [List.cons_append, cb_valid_seq, Bool.and_eq_true] at hv
    simp only [cb_run]
    exact ih _ hv.2

theorem cb_step_destroyed (cb : control_block) (op : cb_op)
    (hv : cb_valid cb op = true) :
    life_event.destroyed ∈ (cb_step cb op).2 ↔ (cb.ref = 1 ∧ op = cb_op.dec) := by
  cases op with
  | inc => simp [cb_step]
  | winc => simp [cb_step]
  | wdec =>
    by_cases hc : cb.wref - 1 = 0 ∧ cb.ref = 0 <;> simp [cb_step, hc]
  | dec =>
    have hr : 1 ≤ cb.ref := by simpa [cb_valid] using hv
    by_cases h2 : 2 ≤ cb.ref
    · have hne : cb.ref - 1 ≠ 0 := by omega
      simp [cb_step, hne]
      omega
    · have he : cb.ref = 1 := by omega
      have hz : ¬(cb.ref - 1 ≠ 0) := by omega
      by_cases hw : cb.wref = 0 <;> simp [cb_step, hz, hw, he]

theorem cb_step_deleted (cb : control_block) (op : cb_op)
    (hv : cb_valid cb op = true) :
    life_event.deleted ∈ (cb_step cb op).2
      ↔ ((cb_step cb op).1.ref = 0 ∧ (cb_step cb op).1.wref = 0) := by
  cases op with
  | inc => simp [cb_step]
  | winc => simp [cb_step]
  | wdec =>
    by_cases hc : cb.wref - 1 = 0 ∧ cb.ref = 0
    · simp [cb_step, hc, hc.1, hc.2]
    · simp only [cb_step, if_neg hc]
      simp
      omega
  | dec =>
    have hr : 1 ≤ cb.ref := by simpa [cb_valid] using hv
    by_cases h2 : 2 ≤ cb.ref
    · have hne : cb.ref - 1 ≠ 0 := by omega
      simp [cb_step, hne]
    · have he : cb.ref = 1 := by omega
      have hz : ¬(cb.ref - 1 ≠ 0) := by omega
      by_cases hw : cb.wref = 0 <;> simp [cb_step, hz, hw, he]

/-! ## Claim theorems -/

/-- C1, counterexample to the claim as stated: two shared handles
aliased to the same block (block 0, strong count 2); after
move-assignment of the second into the first, the source handle is not
reset to the empty handle — the same-block branch of
`shared_ptr::assign(shared_ptr<Y>&&)` leaves the source untouched. -/
theorem c1_counterexample :
    ¬((shared_ptr.assign_move ⟨[some ⟨2, 0, .default_cb (some 10)⟩]⟩
        ⟨some 0, some 10⟩ ⟨some 0, some 20⟩).src = ⟨none, none⟩) := by
  decide

/-- C1 (amended): for shared and weak handles whose block references
are equal, move-assignment adopts the source's address into the
destination and leaves the source handle unchanged (it is not reset to
empty); the heap — hence every count — is unchanged and no events are
emitted, so ownership is not duplicated. -/
theorem c1_move_assign_same_block (h : Heap) (p q : shared_ptr)
    (u v : weak_ptr) (hpq : p.block = q.block) (huv : u.block = v.block) :
    shared_ptr.assign_move h p q = ⟨h, ⟨p.block, q.ptr⟩, q, []⟩
    ∧ weak_ptr.assign_move h u v = ⟨h, ⟨u.block, v.ptr⟩, v, []⟩ := by
  constructor
  · cases p with | mk pb pp => cases q with | mk qb qp =>
      simp only at hpq
      subst hpq
      simp [shared_ptr.assign_move]
  · cases u with | mk ub up => cases v with | mk vb vp =>
      simp only at huv
      subst huv
      simp [weak_ptr.assign_move]

/-- Witness for C1 at a concrete input: two aliased shared handles on
block 0 and two aliased weak handles on block 1. -/
theorem c1_witness :
    (⟨some 0, some 10⟩ : shared_ptr).block = (⟨some 0, some 20⟩ : shared_ptr).block
    ∧ (⟨some 1, some 3⟩ : weak_ptr).block = (⟨some 1, some 4⟩ : weak_ptr).block
    ∧ (shared_ptr.assign_move ⟨[]⟩ ⟨some 0, some 10⟩ ⟨some 0, some 20⟩
        = ⟨⟨[]⟩, ⟨some 0, some 20⟩, ⟨some 0, some 20⟩, []⟩
      ∧ weak_ptr.assign_move ⟨[]⟩ ⟨some 1, some 3⟩ ⟨some 1, some 4⟩
        = ⟨⟨[]⟩, ⟨some 1, some 4⟩, ⟨some 1, some 4⟩, []⟩) :=
  ⟨rfl, rfl, c1_move_assign_same_block ⟨[]⟩ ⟨some 0, some 10⟩ ⟨some 0, some 20⟩
    ⟨some 1, some 3⟩ ⟨some 1, some 4⟩ rfl rfl⟩

/-- C2, evaluating the code at the failing input (code bug): a handle
owning block 0 (strong = 1) calls `reset(p)` and the allocation of the
new default control block fails.  The preceding `dec()` has destroyed
the managed object and deallocated block 0, yet the handle still holds
`block = 0` — it is not empty, contradicting the claim and the spec.
The deleter overload `reset(p, d)` nulls the handle first and is
correct: it ends empty and invokes the deleter once on the new raw
pointer. -/
theorem c2_reset_alloc_failure :
    shared_ptr.reset_with_ptr ⟨[some ⟨1, 0, .default_cb (some 10)⟩]⟩
        ⟨some 0, some 10⟩ (some 11) false
      = ⟨⟨[none]⟩, ⟨some 0, some 10⟩, .threw,
          [.dec_evt 0, .destroy_evt 0, .delete_block 0]⟩
    ∧ (shared_ptr.reset_with_ptr ⟨[some ⟨1, 0, .default_cb (some 10)⟩]⟩
        ⟨some 0, some 10⟩ (some 11) false).self ≠ shared_ptr.mk_null
    ∧ shared_ptr.reset_with_deleter ⟨[some ⟨1, 0, .default_cb (some 10)⟩]⟩
        ⟨some 0, some 10⟩ (some 11) 7 false
      = ⟨⟨[none]⟩, ⟨none, none⟩, .threw,
          [.dec_evt 0, .destroy_evt 0, .delete_block 0, .deleter_call 7 (some 11)]⟩ := by
  decide

/-- C3, evaluating the code at the failing input (code bug): the plain
raw-pointer constructor is declared `noexcept` while calling `new`, so
an allocation failure calls `std::terminate` instead of propagating to
the caller as the claim and the spec require.  The deleter constructor
behaves as claimed: it invokes the deleter exactly once on the raw
pointer and lets the failure propagate. -/
theorem c3_ctor_alloc_failure :
    (shared_ptr.mk_from_ptr ⟨[]⟩ (some 5) false).result = outcome.terminated
    ∧ (shared_ptr.mk_from_ptr ⟨[]⟩ (some 5) false).result ≠ outcome.threw
    ∧ shared_ptr.mk_with_deleter ⟨[]⟩ (some 5) 7 false
      = ⟨⟨[]⟩, none, .threw, [.deleter_call 7 (some 5)]⟩
    ∧ (shared_ptr.mk_with_deleter ⟨[]⟩ (some 5) 7 false).events.count
        (.deleter_call 7 (some 5)) = 1 := by
  decide

/-- C4: over any valid sequence of counter operations on a block created
with strong = 1, weak = 0: the managed resource is destroyed exactly
once, and exactly at the step where the strong count goes from 1 to 0
(a `dec`); the block's storage is deallocated exactly once, and exactly
at the step after which both counts are 0; and the strong count never
re-enters a positive state after reaching 0 (liveness is monotone). -/
theorem c4_block_lifecycle (v : cbvariant) (ops : List cb_op)
    (hval : cb_valid_seq ⟨1, 0, v⟩ ops = true) :
    ((cb_trace ⟨1, 0, v⟩ ops).count .destroyed
        = if (cb_run ⟨1, 0, v⟩ ops).ref = 0 then 1 else 0)
    ∧ ((cb_trace ⟨1, 0, v⟩ ops).count .deleted
        = if (cb_run ⟨1, 0, v⟩ ops).ref = 0 ∧ (cb_run ⟨1, 0, v⟩ ops).wref = 0
          then 1 else 0)
    ∧ (∀ l l' : List cb_op, ops = l ++ l' → (cb_run ⟨1, 0, v⟩ l).ref = 0 →
        (cb_run ⟨1, 0, v⟩ ops).ref = 0)
    ∧ (∀ (cb : control_block) (op : cb_op), cb_valid cb op = true →
        ((life_event.destroyed ∈ (cb_step cb op).2 ↔ (cb.ref = 1 ∧ op = cb_op.dec))
        ∧ (life_event.deleted ∈ (cb_step cb op).2
            ↔ ((cb_step cb op).1.ref = 0 ∧ (cb_step cb op).1.wref = 0)))) := by
  refine ⟨cb_run_destroyed_count ops _ (Nat.le_refl 1) hval,
          cb_run_deleted_count ops _ (Or.inl (Nat.le_refl 1)) hval, ?_, ?_⟩
  · intro l l' hsplit h0
    subst hsplit
    rw [cb_run_append]
    exact (cb_run_ref_zero l' (cb_run ⟨1, 0, v⟩ l) h0
      (cb_valid_seq_append l l' _ hval)).1
  · intro cb op hv
    exact ⟨cb_step_destroyed cb op hv, cb_step_deleted cb op hv⟩

/-- Witness for C4: a weak handle is taken, the last strong reference is
dropped (destroying the resource), then the weak reference is dropped
(deallocating the block). -/
theorem c4_witness :
    cb_valid_seq ⟨1, 0, cbvariant.inplace_cb⟩ [cb_op.winc, cb_op.dec, cb_op.wdec] = true
    ∧ (((cb_trace ⟨1, 0, cbvariant.inplace_cb⟩ [cb_op.winc, cb_op.dec, cb_op.wdec]).count .destroyed
          = if (cb_run ⟨1, 0, cbvariant.inplace_cb⟩ [cb_op.winc, cb_op.dec, cb_op.wdec]).ref = 0
            then 1 else 0)
      ∧ ((cb_trace ⟨1, 0, cbvariant.inplace_cb⟩ [cb_op.winc, cb_op.dec, cb_op.wdec]).count .deleted
          = if (cb_run ⟨1, 0, cbvariant.inplace_cb⟩ [cb_op.winc, cb_op.dec, cb_op.wdec]).ref = 0
              ∧ (cb_run ⟨1, 0, cbvariant.inplace_cb⟩ [cb_op.winc, cb_op.dec, cb_op.wdec]).wref = 0
            then 1 else 0)
      ∧ (∀ l l' : List cb_op, [cb_op.winc, cb_op.dec, cb_op.wdec] = l ++ l' →
          (cb_run ⟨1, 0, cbvariant.inplace_cb⟩ l).ref = 0 →
          (cb_run ⟨1, 0, cbvariant.inplace_cb⟩ [cb_op.winc, cb_op.dec, cb_op.wdec]).ref = 0)
      ∧ (∀ (cb : control_block) (op : cb_op), cb_valid cb op = true →
          ((life_event.destroyed ∈ (cb_step cb op).2 ↔ (cb.ref = 1 ∧ op = cb_op.dec))
          ∧ (life_event.deleted ∈ (cb_step cb op).2
              ↔ ((cb_step cb op).1.ref = 0 ∧ (cb_step cb op).1.wref = 0))))) :=
  ⟨by decide, c4_block_lifecycle cbvariant.inplace_cb
    [cb_op.winc, cb_op.dec, cb_op.wdec] (by decide)⟩

/-- C5: `weak_ptr::lock` returns the empty shared handle when the weak
handle is empty or the block's strong count is 0; otherwise it
increments the strong count by exactly 1 and returns a shared handle on
the same block with the same address, the only emitted event being the
increment (so no disposal can be observed between the check and the
increment). -/
theorem c5_weak_lock (h : Heap) (w : weak_ptr) (b : Nat) (cb : control_block)
    (hb : w.block = some b) (hf : h.find b = some cb) :
    (cb.ref = 0 → weak_ptr.lock h w = ⟨h, ⟨none, none⟩, []⟩)
    ∧ (1 ≤ cb.ref →
        weak_ptr.lock h w
          = ⟨h.set b (some { cb with ref := cb.ref + 1 }), ⟨some b, w.ptr⟩, [.inc_evt b]⟩
        ∧ shared_ptr.use_count (h.set b (some { cb with ref := cb.ref + 1 }))
            ⟨some b, w.ptr⟩ = cb.ref + 1)
    ∧ (∀ (h' : Heap) (w' : weak_ptr), w'.block = none →
        weak_ptr.lock h' w' = ⟨h', ⟨none, none⟩, []⟩) := by
  refine ⟨?_, ?_, ?_⟩
  · intro h0
    have hrc : Heap.ref_count h b = 0 := by simp [Heap.ref_count, hf, h0]
    simp [weak_ptr.lock, hb, hrc]
  · intro h1
    have hrc : ¬Heap.ref_count h b = 0 := by
      simp only [Heap.ref_count, hf]
      omega
    constructor
    · simp [weak_ptr.lock, hb, hrc, Heap.inc_eq h b cb hf]
    · simp [shared_ptr.use_count, Heap.ref_count, Heap.find_set_self h b cb _ hf]
  · intro h' w' hw'
    simp [weak_ptr.lock, hw']

/-- Witness for C5: a weak handle on block 0 of a heap where the block
is live (strong = 1, weak = 2). -/
theorem c5_witness :
    (⟨some 0, some 3⟩ : weak_ptr).block = some 0
    ∧ (⟨[some ⟨1, 2, cbvariant.inplace_cb⟩]⟩ : Heap).find 0 = some ⟨1, 2, cbvariant.inplace_cb⟩
    ∧ (((⟨1, 2, cbvariant.inplace_cb⟩ : control_block).ref = 0 →
          weak_ptr.lock ⟨[some ⟨1, 2, cbvariant.inplace_cb⟩]⟩ ⟨some 0, some 3⟩
            = ⟨⟨[some ⟨1, 2, cbvariant.inplace_cb⟩]⟩, ⟨none, none⟩, []⟩)
      ∧ (1 ≤ (⟨1, 2, cbvariant.inplace_cb⟩ : control_block).ref →
          weak_ptr.lock ⟨[some ⟨1, 2, cbvariant.inplace_cb⟩]⟩ ⟨some 0, some 3⟩
            = ⟨Heap.set ⟨[some ⟨1, 2, cbvariant.inplace_cb⟩]⟩ 0 (some ⟨2, 2, cbvariant.inplace_cb⟩),
                ⟨some 0, some 3⟩, [.inc_evt 0]⟩
          ∧ shared_ptr.use_count
              (Heap.set ⟨[some ⟨1, 2, cbvariant.inplace_cb⟩]⟩ 0 (some ⟨2, 2, cbvariant.inplace_cb⟩))
              ⟨some 0, some 3⟩ = 2)
      ∧ (∀ (h' : Heap) (w' : weak_ptr), w'.block = none →
          weak_ptr.lock h' w' = ⟨h', ⟨none, none⟩, []⟩)) :=
  ⟨rfl, rfl, c5_weak_lock ⟨[some ⟨1, 2, cbvariant.inplace_cb⟩]⟩ ⟨some 0, some 3⟩ 0
    ⟨1, 2, cbvariant.inplace_cb⟩ rfl rfl⟩

/-- C6, counterexample to the claim as stated: two shared handles on the
same block (block 0, strong = 1); copy-assignment of one to the other
performs a counter increment and a counter decrement — there is no
same-block identity check in `shared_ptr::assign(const shared_ptr<Y>&)`
— so the emitted event list is not empty as the claim requires. -/
theorem c6_counterexample :
    (shared_ptr.assign_copy ⟨[some ⟨1, 0, .default_cb (some 10)⟩]⟩
        ⟨some 0, some 10⟩ ⟨some 0, some 20⟩).events ≠ [] := by
  decide

/-- C6 (amended): every copy-assignment between two shared handles that
already share a block (the block being live through the handles' own
strong references), and likewise every copy-assignment between two weak
handles that already share a block (the block's weak count being
positive through the handles' own weak references, its strong count
arbitrary — including an expired block), updates the destination's
address and leaves the heap — hence both counts — unchanged; the
implementation performs an increment of the shared count followed by a
matching decrement (rather than no count operations), in that order, so
the count never passes through zero and no destroy or deallocation
event occurs.  The two halves are quantified independently. -/
theorem c6_same_block_copy_assign :
    (∀ (h : Heap) (p r : shared_ptr) (b : Nat) (cb : control_block),
        p.block = some b → r.block = some b → h.find b = some cb → 1 ≤ cb.ref →
        shared_ptr.assign_copy h p r
          = ⟨h, ⟨some b, r.ptr⟩, [.inc_evt b, .dec_evt b]⟩)
    ∧ (∀ (h : Heap) (u v : weak_ptr) (b : Nat) (cb : control_block),
        u.block = some b → v.block = some b → h.find b = some cb → 1 ≤ cb.wref →
        weak_ptr.assign_copy h u v
          = ⟨h, ⟨some b, v.ptr⟩, [.winc_evt b, .wdec_evt b]⟩) :=
  ⟨fun h p r b cb hp hr hf hsc => sp_assign_copy_same h p r b cb hp hr hf hsc,
   fun h u v b cb hu hv hf hwc => wp_assign_copy_same h u v b cb hu hv hf hwc⟩

/-- Witness for C6, at the two previously delicate states: two shared
handles on block 0, which has no weak references at all (strong = 1,
weak = 0), and two weak handles on block 1, which is expired
(strong = 0, weak = 1). -/
theorem c6_witness :
    shared_ptr.assign_copy
        ⟨[some ⟨1, 0, cbvariant.inplace_cb⟩, some ⟨0, 1, cbvariant.inplace_cb⟩]⟩
        ⟨some 0, some 10⟩ ⟨some 0, some 20⟩
      = ⟨⟨[some ⟨1, 0, cbvariant.inplace_cb⟩, some ⟨0, 1, cbvariant.inplace_cb⟩]⟩,
          ⟨some 0, some 20⟩, [.inc_evt 0, .dec_evt 0]⟩
    ∧ weak_ptr.assign_copy
        ⟨[some ⟨1, 0, cbvariant.inplace_cb⟩, some ⟨0, 1, cbvariant.inplace_cb⟩]⟩
        ⟨some 1, some 30⟩ ⟨some 1, some 40⟩
      = ⟨⟨[some ⟨1, 0, cbvariant.inplace_cb⟩, some ⟨0, 1, cbvariant.inplace_cb⟩]⟩,
          ⟨some 1, some 40⟩, [.winc_evt 1, .wdec_evt 1]⟩ :=
  ⟨c6_same_block_copy_assign.1
      ⟨[some ⟨1, 0, cbvariant.inplace_cb⟩, some ⟨0, 1, cbvariant.inplace_cb⟩]⟩
      ⟨some 0, some 10⟩ ⟨some 0, some 20⟩ 0 ⟨1, 0, cbvariant.inplace_cb⟩
      rfl rfl rfl (Nat.le_refl 1),
   c6_same_block_copy_assign.2
      ⟨[some ⟨1, 0, cbvariant.inplace_cb⟩, some ⟨0, 1, cbvariant.inplace_cb⟩]⟩
      ⟨some 1, some 30⟩ ⟨some 1, some 40⟩ 1 ⟨0, 1, cbvariant.inplace_cb⟩
      rfl rfl rfl (Nat.le_refl 1)⟩

/-- C7: self-assignment, by copy or by move, of a shared or a weak
handle leaves the observable state unchanged: the heap (hence the
managed value and both counts) and the handle (block and address) are
the same after the assignment as before. -/
theorem c7_self_assignment (h : Heap) (p : shared_ptr) (w : weak_ptr)
    (hp : ∀ b, p.block = some b → ∃ cb, h.find b = some cb ∧ 1 ≤ cb.ref)
    (hw : ∀ b, w.block = some b → ∃ cb, h.find b = some cb ∧ 1 ≤ cb.wref) :
    ((shared_ptr.assign_copy h p p).heap = h ∧ (shared_ptr.assign_copy h p p).self = p)
    ∧ shared_ptr.assign_move_self h p = (h, p)
    ∧ ((weak_ptr.assign_copy h w w).heap = h ∧ (weak_ptr.assign_copy h w w).self = w)
    ∧ weak_ptr.assign_move_self h w = (h, w) := by
  refine ⟨?_, ?_, ?_, ?_⟩
  · obtain ⟨pb, pp⟩ := p
    cases pb with
    | none => simp [shared_ptr.assign_copy]
    | some b =>
      obtain ⟨cb, hf, hc⟩ := hp b rfl
      rw [sp_assign_copy_same h ⟨some b, pp⟩ ⟨some b, pp⟩ b cb rfl rfl hf hc]
      exact ⟨rfl, rfl⟩
  · obtain ⟨pb, pp⟩ := p
    simp [shared_ptr.assign_move_self]
  · obtain ⟨wb, wp⟩ := w
    cases wb with
    | none => simp [weak_ptr.assign_copy]
    | some b =>
      obtain ⟨cb, hf, hc⟩ := hw b rfl
      rw [wp_assign_copy_same h ⟨some b, wp⟩ ⟨some b, wp⟩ b cb rfl rfl hf hc]
      exact ⟨rfl, rfl⟩
  · obtain ⟨wb, wp⟩ := w
    simp [weak_ptr.assign_move_self]

/-- Witness for C7: block 0 with strong = 1, weak = 1, one shared and
one weak handle on it. -/
theorem c7_witness :
    (∀ b, (⟨some 0, some 5⟩ : shared_ptr).block = some b →
      ∃ cb, (⟨[some ⟨1, 1, cbvariant.inplace_cb⟩]⟩ : Heap).find b = some cb ∧ 1 ≤ cb.ref)
    ∧ (∀ b, (⟨some 0, some 6⟩ : weak_ptr).block = some b →
      ∃ cb, (⟨[some ⟨1, 1, cbvariant.inplace_cb⟩]⟩ : Heap).find b = some cb ∧ 1 ≤ cb.wref)
    ∧ (((shared_ptr.assign_copy ⟨[some ⟨1, 1, cbvariant.inplace_cb⟩]⟩
            ⟨some 0, some 5⟩ ⟨some 0, some 5⟩).heap = ⟨[some ⟨1, 1, cbvariant.inplace_cb⟩]⟩
        ∧ (shared_ptr.assign_copy ⟨[some ⟨1, 1, cbvariant.inplace_cb⟩]⟩
            ⟨some 0, some 5⟩ ⟨some 0, some 5⟩).self = ⟨some 0, some 5⟩)
      ∧ shared_ptr.assign_move_self ⟨[some ⟨1, 1, cbvariant.inplace_cb⟩]⟩ ⟨some 0, some 5⟩
          = (⟨[some ⟨1, 1, cbvariant.inplace_cb⟩]⟩, ⟨some 0, some 5⟩)
      ∧ ((weak_ptr.assign_copy ⟨[some ⟨1, 1, cbvariant.inplace_cb⟩]⟩
            ⟨some 0, some 6⟩ ⟨some 0, some 6⟩).heap = ⟨[some ⟨1, 1, cbvariant.inplace_cb⟩]⟩
        ∧ (weak_ptr.assign_copy ⟨[some ⟨1, 1, cbvariant.inplace_cb⟩]⟩
            ⟨some 0, some 6⟩ ⟨some 0, some 6⟩).self = ⟨some 0, some 6⟩)
      ∧ weak_ptr.assign_move_self ⟨[some ⟨1, 1, cbvariant.inplace_cb⟩]⟩ ⟨some 0, some 6⟩
          = (⟨[some ⟨1, 1, cbvariant.inplace_cb⟩]⟩, ⟨some 0, some 6⟩)) := by
  have h1 : ∀ b, (⟨some 0, some 5⟩ : shared_ptr).block = some b →
      ∃ cb, (⟨[some ⟨1, 1, cbvariant.inplace_cb⟩]⟩ : Heap).find b = some cb ∧ 1 ≤ cb.ref := by
    intro b hb
    injection hb with hb'
    subst hb'
    exact ⟨⟨1, 1, cbvariant.inplace_cb⟩, rfl, Nat.le_refl 1⟩
  have h2 : ∀ b, (⟨some 0, some 6⟩ : weak_ptr).block = some b →
      ∃ cb, (⟨[some ⟨1, 1, cbvariant.inplace_cb⟩]⟩ : Heap).find b = some cb ∧ 1 ≤ cb.wref := by
    intro b hb
    injection hb with hb'
    subst hb'
    exact ⟨⟨1, 1, cbvariant.inplace_cb⟩, rfl, Nat.le_refl 1⟩
  exact ⟨h1, h2, c7_self_assignment ⟨[some ⟨1, 1, cbvariant.inplace_cb⟩]⟩
    ⟨some 0, some 5⟩ ⟨some 0, some 6⟩ h1 h2⟩

/-- C8: constructing a shared handle from a typed null raw pointer
(successful allocation) yields a handle with a block whose strong count
is 1 while its truthiness is false, whereas the default- or
null-constructed handle has no block and strong count 0; the two states
are distinguishable by their counts. -/
theorem c8_null_ptr_distinguishable (h : Heap) :
    (shared_ptr.mk_from_ptr h none true).result = outcome.ok
    ∧ (shared_ptr.mk_from_ptr h none true).handle
        = some ⟨some h.blocks.length, none⟩
    ∧ shared_ptr.use_count (shared_ptr.mk_from_ptr h none true).heap
        ⟨some h.blocks.length, none⟩ = 1
    ∧ shared_ptr.op_bool ⟨some h.blocks.length, none⟩ = false
    ∧ shared_ptr.use_count h shared_ptr.mk_null = 0
    ∧ shared_ptr.op_bool shared_ptr.mk_null = false
    ∧ shared_ptr.use_count (shared_ptr.mk_from_ptr h none true).heap
          ⟨some h.blocks.length, none⟩
        ≠ shared_ptr.use_count (shared_ptr.mk_from_ptr h none true).heap
          shared_ptr.mk_null := by
  have hfa : (Heap.alloc h ⟨1, 0, cbvariant.default_cb none⟩).1.find h.blocks.length
      = some ⟨1, 0, cbvariant.default_cb none⟩ :=
    Heap.find_alloc h ⟨1, 0, cbvariant.default_cb none⟩
  have huc : shared_ptr.use_count (shared_ptr.mk_from_ptr h none true).heap
      ⟨some h.blocks.length, none⟩ = 1 := by
    show Heap.ref_count (Heap.alloc h ⟨1, 0, cbvariant.default_cb none⟩).1
      h.blocks.length = 1
    simp [Heap.ref_count, hfa]
  refine ⟨rfl, rfl, huc, rfl, rfl, rfl, ?_⟩
  rw [huc]
  simp [shared_ptr.use_count, shared_ptr.mk_null]

/-- C9: two shared handles compare equal iff their addresses (`get()`)
are equal, independently of block identity; comparison against the null
constant holds iff the address is null; and a handle aliased to `s` at
an address different from `s`'s own compares unequal to `s` even though
they share a block. -/
theorem c9_equality_by_address (p q : shared_ptr) (h : Heap)
    (s : shared_ptr) (a : Addr) (ha : a ≠ s.get) :
    (sp_eq_sp p q = true ↔ p.get = q.get)
    ∧ (sp_eq_null p = true ↔ p.get = none)
    ∧ (∀ b b' : Option Nat, sp_eq_sp ⟨b, p.ptr⟩ ⟨b', q.ptr⟩ = sp_eq_sp p q)
    ∧ sp_eq_sp (shared_ptr.alias_ctor h s a).self s = false := by
  refine ⟨by simp [sp_eq_sp], by simp [sp_eq_null], fun b b' => rfl, ?_⟩
  have hself : (shared_ptr.alias_ctor h s a).self.ptr = a := by
    cases hsb : s.block with
    | none => simp [shared_ptr.alias_ctor, hsb]
    | some b => simp [shared_ptr.alias_ctor, hsb]
  simp [sp_eq_sp, shared_ptr.get, hself]
  exact ha

/-- Witness for C9: an aliased handle built from a shared handle on
block 0 with a different address. -/
theorem c9_witness :
    (some 3 : Addr) ≠ (⟨some 0, some 2⟩ : shared_ptr).get
    ∧ ((sp_eq_sp ⟨none, some 1⟩ ⟨some 0, some 1⟩ = true
          ↔ (⟨none, some 1⟩ : shared_ptr).get = (⟨some 0, some 1⟩ : shared_ptr).get)
      ∧ (sp_eq_null ⟨none, some 1⟩ = true ↔ (⟨none, some 1⟩ : shared_ptr).get = none)
      ∧ (∀ b b' : Option Nat,
          sp_eq_sp ⟨b, (⟨none, some 1⟩ : shared_ptr).ptr⟩
              ⟨b', (⟨some 0, some 1⟩ : shared_ptr).ptr⟩
            = sp_eq_sp ⟨none, some 1⟩ ⟨some 0, some 1⟩)
      ∧ sp_eq_sp (shared_ptr.alias_ctor ⟨[some ⟨1, 0, cbvariant.inplace_cb⟩]⟩
          ⟨some 0, some 2⟩ (some 3)).self ⟨some 0, some 2⟩ = false) :=
  ⟨by decide, c9_equality_by_address ⟨none, some 1⟩ ⟨some 0, some 1⟩
    ⟨[some ⟨1, 0, cbvariant.inplace_cb⟩]⟩ ⟨some 0, some 2⟩ (some 3) (by decide)⟩

/-- C10: the aliasing constructor applied to an empty shared handle with
an explicit address `a` yields a handle with a null block, `get() = a`
and strong count 0; the heap is unchanged and no events are emitted, so
no count increment is performed. -/
theorem c10_alias_of_empty (h : Heap) (s : shared_ptr) (a : Addr)
    (hs : s.block = none) :
    shared_ptr.alias_ctor h s a = ⟨h, ⟨none, a⟩, []⟩
    ∧ (shared_ptr.alias_ctor h s a).self.get = a
    ∧ shared_ptr.use_count (shared_ptr.alias_ctor h s a).heap
        (shared_ptr.alias_ctor h s a).self = 0 := by
  have h1 : shared_ptr.alias_ctor h s a = ⟨h, ⟨none, a⟩, []⟩ := by
    simp [shared_ptr.alias_ctor, hs]
  refine ⟨h1, ?_, ?_⟩ <;> rw [h1] <;> rfl

/-- Witness for C10: aliasing the empty handle at address 7. -/
theorem c10_witness :
    (shared_ptr.mk_null.block = none)
    ∧ (shared_ptr.alias_ctor ⟨[]⟩ shared_ptr.mk_null (some 7) = ⟨⟨[]⟩, ⟨none, some 7⟩, []⟩
      ∧ (shared_ptr.alias_ctor ⟨[]⟩ shared_ptr.mk_null (some 7)).self.get = some 7
      ∧ shared_ptr.use_count (shared_ptr.alias_ctor ⟨[]⟩ shared_ptr.mk_null (some 7)).heap
          (shared_ptr.alias_ctor ⟨[]⟩ shared_ptr.mk_null (some 7)).self = 0) :=
  ⟨rfl, c10_alias_of_empty ⟨[]⟩ shared_ptr.mk_null (some 7) rfl⟩

end SharedPtrSpec
